import Mathlib

/-!
Verification of the core logic of the Japanese sentence analyzer
(app.py): the response sanitizer and JSON recovery in parse_chunks,
the role normalizer (JP_ROLE_MAP and the closed role set), the chunk
renderer build_chunks_html, and the stack-based bracket colorizer
colorize_bracket_sentence.

Strings are modelled as lists of characters (Python str as List Char).
Machine-level details that the analyzer never exercises are noted at
the definition they concern.
-/

namespace JPApp

/-- Python whitespace as used by str.strip / str.lstrip (ASCII subset;
the analyzer's payloads contain no exotic Unicode whitespace). -/
def isPySpace (c : Char) : Bool :=
  c == ' ' || c == '\t' || c == '\n' || c == '\r' || c == '\x0b' || c == '\x0c'

/-- Python str.lstrip(). -/
def pyLStrip (cs : List Char) : List Char := cs.dropWhile isPySpace

/-- Python str.strip(): drop leading and trailing whitespace. -/
def pyStrip (cs : List Char) : List Char :=
  ((pyLStrip cs).reverse.dropWhile isPySpace).reverse

/-- Python cleaned.split on the three-backtick fence, left to right,
non-overlapping, as in parse_chunks. -/
def splitFence : List Char → List (List Char)
  | '\x60' :: '\x60' :: '\x60' :: rest => [] :: splitFence rest
  | c :: rest =>
    match splitFence rest with
    | [] => [[c]]
    | h :: t => (c :: h) :: t
  | [] => [[]]

/-- Whether the text starts with the three-backtick fence
(Python cleaned.startswith). -/
def startsWithFence : List Char → Bool
  | '\x60' :: '\x60' :: '\x60' :: _ => true
  | _ => false

/-- Whether the text starts with a brace or bracket, used on the
lstripped text in parse_chunks. -/
def startsWithBraceOrBracket : List Char → Bool
  | '\x7b' :: _ => true
  | '[' :: _ => true
  | _ => false

/-- Prefix of cs up to and including the last occurrence of t. -/
def takeToLast (t : Char) (cs : List Char) : List Char :=
  (cs.reverse.dropWhile (fun c => !(c == t))).reverse

/-- Python re.search of the pattern matching a brace-to-brace or
bracket-to-bracket span with DOTALL: leftmost start position, brace
alternative tried first, greedy out to the last matching closer. -/
def extractJsonSpan : List Char → Option (List Char)
  | [] => none
  | c :: rest =>
    if c == '\x7b' && rest.contains '\x7d' then
      some (c :: takeToLast '\x7d' rest)
    else if c == '[' && rest.contains ']' then
      some (c :: takeToLast ']' rest)
    else
      extractJsonSpan rest

/-- The sanitation pipeline of parse_chunks applied to the stripped raw
text: peel a code fence when at least three split parts exist, then,
when the text does not open with a brace or bracket, fall back to the
greedy embedded-span extraction. -/
def sanitize (cleaned0 : List Char) : List Char :=
  let cleaned :=
    if startsWithFence cleaned0 then
      let parts := splitFence cleaned0
      if 3 ≤ parts.length then pyStrip (parts.getD 1 []) else cleaned0
    else cleaned0
  if startsWithBraceOrBracket (pyLStrip cleaned) then cleaned
  else
    match extractJsonSpan cleaned with
    | some g => pyStrip g
    | none => cleaned

/-- JSON values as produced by json.loads. Numbers are modelled as
integers: the analyzer's payloads carry no floating-point values, so
float syntax is simply rejected by the embedded parser. -/
inductive JValue where
  | null
  | bool (b : Bool)
  | num (n : Int)
  | str (s : List Char)
  | arr (elems : List JValue)
  | obj (fields : List (List Char × JValue))

/-- JSON whitespace skipped between tokens. -/
def skipWs (cs : List Char) : List Char :=
  cs.dropWhile (fun c => c == ' ' || c == '\t' || c == '\n' || c == '\r')

/-- Value of one hexadecimal digit. -/
def hexVal (c : Char) : Option Nat :=
  if c.isDigit then some (c.toNat - 48)
  else if 'a' ≤ c ∧ c ≤ 'f' then some (c.toNat - 87)
  else if 'A' ≤ c ∧ c ≤ 'F' then some (c.toNat - 55)
  else none

/-- Body of a JSON string after the opening quote: returns the decoded
content and the remaining input after the closing quote. Escapes are
those of json.loads (surrogate pairing is not modelled; the analyzer's
payloads stay in the basic plane). -/
def parseStr : List Char → Option (List Char × List Char)
  | [] => none
  | '"' :: rest => some ([], rest)
  | '\\' :: 'u' :: a :: b :: c :: d :: rest => do
    let ha ← hexVal a
    let hb ← hexVal b
    let hc ← hexVal c
    let hd ← hexVal d
    let (s, r) ← parseStr rest
    some (Char.ofNat (((ha * 16 + hb) * 16 + hc) * 16 + hd) :: s, r)
  | '\\' :: e :: rest => do
    let decoded ←
      if e == '"' then some '"'
      else if e == '\\' then some '\\'
      else if e == '/' then some '/'
      else if e == 'n' then some '\n'
      else if e == 't' then some '\t'
      else if e == 'r' then some '\r'
      else if e == 'b' then some '\x08'
      else if e == 'f' then some '\x0c'
      else none
    let (s, r) ← parseStr rest
    some (decoded :: s, r)
  | c :: rest => do
    let (s, r) ← parseStr rest
    some (c :: s, r)

/-- Leading decimal digits as a natural number with the rest of the
input; fails when no digit is present. -/
def parseDigits (cs : List Char) : Option (Nat × List Char) :=
  let ds := cs.takeWhile Char.isDigit
  if ds.isEmpty then none
  else some (ds.foldl (fun a c => a * 10 + (c.toNat - 48)) 0, cs.dropWhile Char.isDigit)

mutual

/-- Recursive-descent JSON value parser (fuel-indexed), mirroring the
grammar json.loads accepts on the analyzer's payloads. -/
def parseValue : Nat → List Char → Option (JValue × List Char)
  | 0, _ => none
  | Nat.succ n, cs =>
    match skipWs cs with
    | 'n' :: 'u' :: 'l' :: 'l' :: rest => some (.null, rest)
    | 't' :: 'r' :: 'u' :: 'e' :: rest => some (.bool true, rest)
    | 'f' :: 'a' :: 'l' :: 's' :: 'e' :: rest => some (.bool false, rest)
    | '"' :: rest =>
      match parseStr rest with
      | some (s, r) => some (.str s, r)
      | none => none
    | '[' :: rest =>
      match skipWs rest with
      | ']' :: r => some (.arr [], r)
      | _ =>
        match parseElems n rest with
        | some (vs, r) => some (.arr vs, r)
        | none => none
    | '\x7b' :: rest =>
      match skipWs rest with
      | '\x7d' :: r => some (.obj [], r)
      | _ =>
        match parseFields n rest with
        | some (fs, r) => some (.obj fs, r)
        | none => none
    | '-' :: rest =>
      match parseDigits rest with
      | some (m, r) => some (.num (-(m : Int)), r)
      | none => none
    | c :: rest =>
      if c.isDigit then
        match parseDigits (c :: rest) with
        | some (m, r) => some (.num (m : Int), r)
        | none => none
      else none
    | [] => none

/-- One or more comma-separated array elements up to the closing
bracket. -/
def parseElems : Nat → List Char → Option (List JValue × List Char)
  | 0, _ => none
  | Nat.succ n, cs =>
    match parseValue n cs with
    | some (v, r) =>
      match skipWs r with
      | ',' :: r2 =>
        match parseElems n r2 with
        | some (vs, r3) => some (v :: vs, r3)
        | none => none
      | ']' :: r2 => some ([v], r2)
      | _ => none
    | none => none

/-- One or more comma-separated object members up to the closing
brace. -/
def parseFields : Nat → List Char → Option (List (List Char × JValue) × List Char)
  | 0, _ => none
  | Nat.succ n, cs =>
    match skipWs cs with
    | '"' :: rest =>
      match parseStr rest with
      | some (k, r) =>
        match skipWs r with
        | ':' :: r2 =>
          match parseValue n r2 with
          | some (v, r3) =>
            match skipWs r3 with
            | ',' :: r4 =>
              match parseFields n r4 with
              | some (fs, r5) => some ((k, v) :: fs, r5)
              | none => none
            | '\x7d' :: r4 => some ([(k, v)], r4)
            | _ => none
          | none => none
        | _ => none
      | none => none
    | _ => none

end

/-- Python json.loads: parse one value and require only whitespace to
remain. -/
def jsonLoads (cs : List Char) : Option JValue :=
  match parseValue (2 * cs.length + 2) cs with
  | some (v, rest) => if (skipWs rest).isEmpty then some v else none
  | none => none

/-- Python truthiness on JSON-decoded values. -/
def jTruthy : JValue → Bool
  | .null => false
  | .bool b => b
  | .num n => !(n == 0)
  | .str s => !s.isEmpty
  | .arr xs => !xs.isEmpty
  | .obj fs => !fs.isEmpty

/-- Python x or d on JSON-decoded values: keep x when truthy, else d. -/
def pyOr (v d : JValue) : JValue := if jTruthy v then v else d

/-- Python dict lookup semantics for a JSON object built by json.loads:
a duplicated key keeps its last value. -/
def jGet (fields : List (List Char × JValue)) (k : List Char) : Option JValue :=
  fields.foldl (fun acc kv => if kv.1 = k then some kv.2 else acc) none

/-- Python data.get(k, dflt) on a decoded object. -/
def dictGet (fields : List (List Char × JValue)) (k : List Char) (dflt : JValue) : JValue :=
  (jGet fields k).getD dflt

/-- The legacy Japanese-to-Chinese role mapping table JP_ROLE_MAP. -/
def JP_ROLE_MAP : List (List Char × List Char) :=
  [("主語".data, "主语".data),
   ("述語".data, "谓语".data),
   ("目的語".data, "宾语".data),
   ("連体修飾".data, "定语".data),
   ("連用修飾".data, "状语".data),
   ("補語".data, "补语".data),
   ("主題".data, "主题".data),
   ("トピック".data, "主题".data),
   ("話題".data, "主题".data),
   ("状語".data, "状语".data),
   ("修飾語".data, "定语".data),
   ("その他".data, "其他".data)]

/-- The ROLE_COLORS table: the eight canonical content roles and their
highlight colors. -/
def ROLE_COLORS : List (List Char × List Char) :=
  [("主题".data, "#ffc4c4".data),
   ("主语".data, "#ffb3ba".data),
   ("宾语".data, "#fff2a8".data),
   ("谓语".data, "#b3ffd9".data),
   ("状语".data, "#d9b3ff".data),
   ("定语".data, "#c7b3ff".data),
   ("补语".data, "#b3e6ff".data),
   ("其他".data, "#eeeeee".data)]

/-- The key set of ROLE_COLORS, i.e. the eight canonical role tags. -/
def roleColorKeys : List (List Char) := ROLE_COLORS.map Prod.fst

/-- The canonical particle tag. -/
def particleTag : List Char := "助词".data

/-- Role normalization of parse_chunks before the closed-set coercion:
strip, translate through JP_ROLE_MAP, and unify the two particle
spellings. -/
def preNormRole (r0 : List Char) : List Char :=
  let r := pyStrip r0
  let r := (JP_ROLE_MAP.lookup r).getD r
  if r = "助詞".data ∨ r = particleTag then particleTag else r

/-- Full role normalization of parse_chunks: any value outside
ROLE_COLORS that is not the particle tag is coerced to 其他. -/
def normRole (r0 : List Char) : List Char :=
  let r := preNormRole r0
  if ¬ roleColorKeys.contains r ∧ ¬ (r = particleTag) then ("其他".data) else r

/-- A normalized chunk as appended by parse_chunks: the raw text value,
the normalized role, and the raw note value. -/
structure Chunk where
  text : JValue
  role : List Char
  note : JValue

/-- Errors parse_chunks can raise: empty model output, non-JSON output
with its 80-character preview, and the Python runtime errors that an
untyped field of the wrong shape would trigger inside the chunk loop. -/
inductive PErr where
  | empty
  | badJson (preview : List Char)
  | typeErr
deriving DecidableEq

/-- Diagnostic preview of the cleaned text: first 80 characters with
newlines replaced by spaces. -/
def preview80 (cs : List Char) : List Char :=
  (cs.take 80).map (fun c => if c == '\n' then ' ' else c)

/-- The chunk-building loop of parse_chunks over the decoded chunk
items: read text, role and note with defaults, normalize the role,
skip items with falsy text, and surface the Python error a non-string
truthy role or a non-object item would raise. -/
def buildChunks : List JValue → Except PErr (List Chunk)
  | [] => .ok []
  | item :: rest =>
    match item with
    | .obj fs =>
      let textV := dictGet fs ("text".data) (.str [])
      let roleV := dictGet fs ("role".data) (.str ("其他".data))
      let noteV := dictGet fs ("note".data) (.str [])
      match (if jTruthy roleV then roleV else .str []) with
      | .str rs =>
        let role := normRole rs
        if jTruthy textV then
          match buildChunks rest with
          | .ok cs => .ok (⟨textV, role, noteV⟩ :: cs)
          | .error e => .error e
        else buildChunks rest
      | _ => .error .typeErr
    | _ => .error .typeErr

/-- Translation field extracted from the decoded top-level value. -/
def tzOf (data : JValue) : JValue :=
  match data with
  | .obj fs => pyOr (dictGet fs ("translation_zh".data) (.str [])) (.str [])
  | _ => .str []

/-- Bracketed-sentence field extracted from the decoded top-level
value. -/
def swbOf (data : JValue) : JValue :=
  match data with
  | .obj fs => pyOr (dictGet fs ("sentence_with_brackets".data) (.str [])) (.str [])
  | _ => .str []

/-- Chunk list extracted from the decoded top-level value: the chunks
field of an object (falsy coerced to the empty list), a bare array
itself, or the empty list for any other shape. -/
def chunksOf (data : JValue) : JValue :=
  match data with
  | .obj fs => pyOr (dictGet fs ("chunks".data) (.arr [])) (.arr [])
  | .arr xs => .arr xs
  | _ => .arr []

/-- The parse_chunks pipeline of app.py: strip, sanitize, decode JSON,
extract the three fields and run the chunk loop. -/
def parse_chunks (raw_text : String) : Except PErr (List Chunk × JValue × JValue) :=
  let cleaned0 := pyStrip raw_text.data
  if cleaned0.isEmpty then .error .empty
  else
    let cleaned := sanitize cleaned0
    match jsonLoads cleaned with
    | none => .error (.badJson (preview80 cleaned))
    | some data =>
      match chunksOf data with
      | .arr items =>
        match buildChunks items with
        | .ok cs => .ok (cs, tzOf data, swbOf data)
        | .error e => .error e
      | _ => .error .typeErr

/-- Python str() of a JSON-decoded value as interpolated into the
chunk templates. Containers never reach the renderer in this
application (chunk text and note are scalars), so their Python repr is
abbreviated. -/
def jDisp : JValue → List Char
  | .str s => s
  | .num n => (toString n).data
  | .bool true => "True".data
  | .bool false => "False".data
  | .null => "None".data
  | .arr _ => "[...]".data
  | .obj _ => "\x7b...\x7d".data

/-- The particle template of build_chunks_html, with the exact f-string
text of app.py. -/
def particlePiece (displayText safeNote : List Char) : List Char :=
  "\n            <div class=\"chunk\">\n              <div class=\"label\">&nbsp;</div>\n              <div class=\"word particle\">\n                ".data
    ++ displayText
    ++ "\n                <span class=\"particle-note\">".data
    ++ safeNote
    ++ "</span>\n              </div>\n            </div>\n            ".data

/-- The regular colored-block template of build_chunks_html, with the
exact f-string text of app.py. -/
def coloredPiece (label color displayText : List Char) : List Char :=
  "\n        <div class=\"chunk\">\n          <div class=\"label\">".data
    ++ label
    ++ "</div>\n          <div class=\"word\" style=\"background-color: ".data
    ++ color
    ++ ";\">\n            ".data
    ++ displayText
    ++ "\n          </div>\n        </div>\n        ".data

/-- The HTML fragment build_chunks_html emits for one chunk: nothing
for falsy text, the dashed particle marker for the particle tag, and
the colored block (with the 其他 fallback color) otherwise. -/
def chunkPiece (c : Chunk) : List Char :=
  if ¬ jTruthy c.text then []
  else if c.role = particleTag then
    particlePiece (jDisp c.text) (jDisp (if jTruthy c.note then c.note else .str particleTag))
  else
    coloredPiece c.role ((ROLE_COLORS.lookup c.role).getD ("#eeeeee".data)) (jDisp c.text)

/-- The chunk renderer build_chunks_html of app.py. -/
def build_chunks_html (chunks : List Chunk) : List Char :=
  (chunks.map chunkPiece).flatten

/-- Markup tokens emitted by colorize_bracket_sentence, in emission
order: a background-color opening span, the fixed red main-clause
opening span, a closing span, or one character of the input. -/
inductive Tok where
  | openBg (color : List Char)
  | openFg
  | close
  | chr (c : Char)
deriving DecidableEq

/-- State of the colorizer scan: tokens emitted so far, the stack of
colors of the open brackets (head is the top), and the background color
of the currently open span (none when no background span is open). -/
structure CState where
  html : List Tok
  stack : List (List Char)
  current : Option (List Char)

/-- The open_span helper of colorize_bracket_sentence: close the open
background span if any, open a span for the new color if any, and
record the new color. -/
def openSpan (st : CState) (newColor : Option (List Char)) : CState :=
  { st with
    html := st.html ++ (if st.current.isSome then [Tok.close] else [])
      ++ (match newColor with | some c => [Tok.openBg c] | none => []),
    current := newColor }

/-- The add_main_clause_char helper: close any open background span and
emit the character inside its own red foreground span. -/
def addMainChar (st : CState) (ch : Char) : CState :=
  { st with
    html := st.html ++ (if st.current.isSome then [Tok.close] else [])
      ++ [Tok.openFg, Tok.chr ch, Tok.close],
    current := none }

/-- Background colors of the three opening bracket kinds. -/
def bracketColor (c : Char) : List Char :=
  if c == '(' then ("#fff7cc".data)
  else if c == '[' then ("#ffd6e7".data)
  else ("#e6ccff".data)

/-- Whether the character is an opening bracket. -/
def isOpener (c : Char) : Bool := c == '(' || c == '[' || c == '\x7b'

/-- Whether the character is a closing bracket. -/
def isCloser (c : Char) : Bool := c == ')' || c == ']' || c == '\x7d'

/-- Span tokens produced by one guarded open_span call: nothing when
the active color is unchanged, otherwise a close of the open span (if
any) followed by an open of the new color (if any). -/
def spanChange (cur nc : Option (List Char)) : List Tok :=
  if nc = cur then []
  else (if cur.isSome then [Tok.close] else [])
    ++ (match nc with | some c => [Tok.openBg c] | none => [])

/-- One step of the colorizer loop of colorize_bracket_sentence. -/
def colorStep (st : CState) (ch : Char) : CState :=
  if isOpener ch then
    let newColor := bracketColor ch
    let st1 := { st with stack := newColor :: st.stack }
    let st2 := if some newColor ≠ st1.current then openSpan st1 (some newColor) else st1
    { st2 with html := st2.html ++ [Tok.chr ch] }
  else if isCloser ch then
    match st.stack with
    | top :: rest =>
      let st1 := if some top ≠ st.current then openSpan st (some top) else st
      let st2 := { st1 with html := st1.html ++ [Tok.chr ch], stack := rest }
      let newColor := rest.head?
      if newColor ≠ st2.current then openSpan st2 newColor else st2
    | [] => addMainChar st ch
  else
    match st.stack with
    | top :: _ =>
      let st1 := if some top ≠ st.current then openSpan st (some top) else st
      { st1 with html := st1.html ++ [Tok.chr ch] }
    | [] => addMainChar st ch

/-- The token stream colorize_bracket_sentence emits for the whole
input: fold the step over the characters and close the span left open
at the end. -/
def colorizeToks (cs : List Char) : List Tok :=
  let st := cs.foldl colorStep ⟨[], [], none⟩
  st.html ++ (if st.current.isSome then [Tok.close] else [])

/-- Concrete markup text of one token. -/
def renderTok : Tok → List Char
  | .openBg c => "<span style=\"background-color:".data ++ c ++ ";\">".data
  | .openFg => "<span style=\"color:#b91c1c;\">".data
  | .close => "</span>".data
  | .chr ch => [ch]

/-- The colorize_bracket_sentence function of app.py as a string-level
renderer of the token stream. -/
def colorize_bracket_sentence (s : String) : List Char :=
  if s.data.isEmpty then [] else ((colorizeToks s.data).map renderTok).flatten

/-- Number of opening span tags (background or foreground) in a token
stream. -/
def countOpens (ts : List Tok) : Nat :=
  ts.countP (fun t => match t with | .openBg _ => true | .openFg => true | _ => false)

/-- Number of closing span tags in a token stream. -/
def countCloses (ts : List Tok) : Nat :=
  ts.countP (fun t => match t with | .close => true | _ => false)

/-- The input characters carried by a token stream, in order. -/
def toksChars (ts : List Tok) : List Char :=
  ts.filterMap (fun t => match t with | .chr c => some c | _ => none)

/-- Whether pat occurs as a contiguous substring of the text. -/
def hasSubstring (pat : List Char) : List Char → Bool
  | [] => pat.isEmpty
  | c :: rest => pat.isPrefixOf (c :: rest) || hasSubstring pat rest

/-- Span-nesting depth left after scanning a token stream from an
initial depth: an opening tag increments, a closing tag decrements,
and a closing tag at depth zero (a close with no matching open) is a
failure. -/
def depthAfter : List Tok → Nat → Option Nat
  | [], d => some d
  | t :: rest, d =>
    match t, d with
    | .close, 0 => none
    | .close, Nat.succ k => depthAfter rest k
    | .openBg _, _ => depthAfter rest (d + 1)
    | .openFg, _ => depthAfter rest (d + 1)
    | .chr _, _ => depthAfter rest d

/-- Number of spans the colorizer state keeps open in its emitted
markup: one exactly when a background span is active. -/
def curDepth (st : CState) : Nat := if st.current.isSome then 1 else 0

/-! Role normalization lemmas. -/

/-- Every normalized role lands in the closed set: the particle tag or
one of the eight ROLE_COLORS keys. -/
theorem normRole_closed (r : List Char) :
    normRole r = particleTag ∨ normRole r ∈ roleColorKeys := by
  unfold normRole
  dsimp only
  split
  · right
    decide
  · next hcond =>
    by_cases h1 : preNormRole r = particleTag
    · left
      exact h1
    · right
      have h2 : roleColorKeys.contains (preNormRole r) = true := by
        by_contra hc
        exact hcond ⟨by simpa using hc, h1⟩
      simpa using h2

/-- Every chunk produced by the chunk loop carries a role of the form
normRole rs for some raw role string rs. -/
theorem buildChunks_role (items : List JValue) (cs : List Chunk)
    (h : buildChunks items = .ok cs) :
    ∀ c ∈ cs, ∃ rs, c.role = normRole rs := by
  induction items generalizing cs with
  | nil =>
    simp only [buildChunks] at h
    cases h
    simp
  | cons item rest ih =>
    simp only [buildChunks] at h
    split at h
    · split at h
      · split at h
        · split at h
          · next a heq =>
            cases h
            intro c hc
            rcases List.mem_cons.mp hc with hc | hc
            · subst hc
              exact ⟨_, rfl⟩
            · exact ih a heq c hc
          · cases h
        · exact ih _ h
      · cases h
    · cases h

/-- Every chunk in a successful parse_chunks result comes out of the
chunk loop. -/
theorem parse_chunks_role (raw : String) (cs : List Chunk) (tz swb : JValue)
    (h : parse_chunks raw = .ok (cs, tz, swb)) :
    ∀ c ∈ cs, ∃ rs, c.role = normRole rs := by
  unfold parse_chunks at h
  dsimp only at h
  split at h
  · cases h
  · split at h
    · cases h
    · split at h
      · split at h
        · cases h
          exact buildChunks_role _ _ (by assumption)
        · cases h
      · cases h

/-- C1: every chunk emitted by parse_chunks carries a role in the
closed set (the eight canonical ROLE_COLORS tags or the particle tag
助词); every key of the legacy table JP_ROLE_MAP normalizes to one of
the eight canonical tags; and any role whose pre-normalized value
falls outside the closed set is coerced to 其他. -/
theorem C1_role_normalization_closed :
    (∀ (raw : String) (cs : List Chunk) (tz swb : JValue),
      parse_chunks raw = .ok (cs, tz, swb) →
        ∀ c ∈ cs, c.role = particleTag ∨ c.role ∈ roleColorKeys) ∧
    (∀ p ∈ JP_ROLE_MAP, normRole p.1 ∈ roleColorKeys) ∧
    (∀ r : List Char, roleColorKeys.contains (preNormRole r) = false →
      preNormRole r ≠ particleTag → normRole r = "其他".data) := by
  refine ⟨?_, by decide, ?_⟩
  · intro raw cs tz swb h c hc
    obtain ⟨rs, hrs⟩ := parse_chunks_role raw cs tz swb h c hc
    rw [hrs]
    exact normRole_closed rs
  · intro r h1 h2
    unfold normRole
    dsimp only
    rw [if_pos ⟨fun hc => by rw [hc] at h1; exact Bool.noConfusion h1, h2⟩]

/-- Witness for C1 on a concrete model response with a legacy Japanese
role label. -/
theorem C1_witness :
    (Chunk.mk (.str ['a']) ("主语".data) (.str [])).role = particleTag ∨
      (Chunk.mk (.str ['a']) ("主语".data) (.str [])).role ∈ roleColorKeys :=
  C1_role_normalization_closed.1 ("[\x7b\"text\":\"a\",\"role\":\"主語\"\x7d]")
    [Chunk.mk (.str ['a']) ("主语".data) (.str [])] (.str []) (.str []) rfl
    (Chunk.mk (.str ['a']) ("主语".data) (.str [])) (List.mem_singleton.mpr rfl)

/-- C8: role normalization is idempotent on the canonical roles (the
particle tag and the eight canonical content tags). -/
theorem C8_normalize_idempotent :
    ∀ r ∈ particleTag :: roleColorKeys, normRole (normRole r) = normRole r := by
  decide

/-- Witness for C8 at the canonical role 主语. -/
theorem C8_witness : normRole (normRole ("主语".data)) = normRole ("主语".data) :=
  C8_normalize_idempotent ("主语".data) (by decide)

/-! Bracket colorizer lemmas. -/

/-- Depth scanning distributes over appending token streams. -/
theorem depthAfter_append (l1 l2 : List Tok) (d : Nat) :
    depthAfter (l1 ++ l2) d = (depthAfter l1 d).bind (fun k => depthAfter l2 k) := by
  induction l1 generalizing d with
  | nil => simp [depthAfter]
  | cons t rest ih =>
    cases t <;> rcases d with _ | k <;> simp [depthAfter, ih]

/-- A successful depth scan relates the open and close tag counts. -/
theorem depthAfter_count (l : List Tok) (d dFin : Nat)
    (h : depthAfter l d = some dFin) :
    d + countOpens l = dFin + countCloses l := by
  induction l generalizing d with
  | nil =>
    simp [depthAfter] at h
    simp [countOpens, countCloses, h]
  | cons t rest ih =>
    cases t with
    | close =>
      rcases d with _ | k
      · simp [depthAfter] at h
      · simp only [depthAfter] at h
        have hr := ih _ h
        simp [countOpens, countCloses, List.countP_cons] at hr ⊢
        omega
    | openBg c =>
      simp only [depthAfter] at h
      have hr := ih _ h
      simp [countOpens, countCloses, List.countP_cons] at hr ⊢
      omega
    | openFg =>
      simp only [depthAfter] at h
      have hr := ih _ h
      simp [countOpens, countCloses, List.countP_cons] at hr ⊢
      omega
    | chr c =>
      simp only [depthAfter] at h
      have hr := ih _ h
      simp [countOpens, countCloses, List.countP_cons] at hr ⊢
      omega

/-- The markup emitted so far always scans back to the number of spans
the state keeps open; each colorizer step preserves this. -/
theorem depthAfter_colorStep (st : CState) (ch : Char)
    (h : depthAfter st.html 0 = some (curDepth st)) :
    depthAfter (colorStep st ch).html 0 = some (curDepth (colorStep st ch)) := by
  rcases st with ⟨html, stack, cur⟩
  unfold colorStep
  dsimp only
  split
  · split
    · rcases cur with _ | c <;>
        simp_all [openSpan, curDepth, depthAfter_append, depthAfter]
    · next hne =>
      rcases cur with _ | c
      · simp at hne
      · simp_all [curDepth, depthAfter_append, depthAfter]
  · split
    · split
      · next top rest =>
        rcases rest with _ | ⟨r0, rtl⟩ <;>
          split <;> split <;>
            rcases cur with _ | c <;>
              simp_all [openSpan, curDepth, depthAfter_append, depthAfter]
      · rcases cur with _ | c <;>
          simp_all [addMainChar, curDepth, depthAfter_append, depthAfter]
    · split
      · split <;>
          rcases cur with _ | c <;>
            simp_all [openSpan, curDepth, depthAfter_append, depthAfter]
      · rcases cur with _ | c <;>
          simp_all [addMainChar, curDepth, depthAfter_append, depthAfter]

/-- Depth correctness extends over the whole scan of the input. -/
theorem depthAfter_foldl (l : List Char) (st : CState)
    (h : depthAfter st.html 0 = some (curDepth st)) :
    depthAfter (l.foldl colorStep st).html 0
      = some (curDepth (l.foldl colorStep st)) := by
  induction l generalizing st with
  | nil => exact h
  | cons c l ih => exact ih _ (depthAfter_colorStep st c h)

/-- C5: in the markup colorize_bracket_sentence emits for any input,
every opened span tag is closed exactly once by the end of the output:
the depth scan succeeds and ends at depth zero (no stray close, no
span left open), and the opening and closing span tag counts are
equal. -/
theorem C5_spans_balanced (cs : List Char) :
    depthAfter (colorizeToks cs) 0 = some 0 ∧
      countOpens (colorizeToks cs) = countCloses (colorizeToks cs) := by
  have h0 : depthAfter (CState.mk [] [] none).html 0
      = some (curDepth (CState.mk [] [] none)) := by
    simp [depthAfter, curDepth]
  have h := depthAfter_foldl cs ⟨[], [], none⟩ h0
  have hmain : depthAfter (colorizeToks cs) 0 = some 0 := by
    unfold colorizeToks
    dsimp only
    rcases hc : (cs.foldl colorStep ⟨[], [], none⟩).current with _ | c <;>
      simp_all [curDepth, depthAfter_append, depthAfter]
  refine ⟨hmain, ?_⟩
  have := depthAfter_count (colorizeToks cs) 0 0 hmain
  omega

/-- Characters pass through token-stream concatenation. -/
theorem toksChars_append (l1 l2 : List Tok) :
    toksChars (l1 ++ l2) = toksChars l1 ++ toksChars l2 := by
  simp [toksChars]

/-- Each colorizer step emits the processed character exactly once and
no other character. -/
theorem toksChars_colorStep (st : CState) (ch : Char) :
    toksChars (colorStep st ch).html = toksChars st.html ++ [ch] := by
  rcases st with ⟨html, stack, cur⟩
  unfold colorStep
  dsimp only
  split
  · split <;> simp [openSpan, toksChars, List.filterMap_append]
  · split
    · split
      · next top rest =>
        rcases rest with _ | ⟨r0, rtl⟩ <;>
          split <;> split <;> simp [openSpan, toksChars, List.filterMap_append]
      · simp [addMainChar, toksChars, List.filterMap_append]
    · split
      · split <;> simp [openSpan, toksChars, List.filterMap_append]
      · simp [addMainChar, toksChars, List.filterMap_append]

/-- The scan emits all processed characters in order. -/
theorem toksChars_foldl (l : List Char) (st : CState) :
    toksChars (l.foldl colorStep st).html = toksChars st.html ++ l := by
  induction l generalizing st with
  | nil => simp
  | cons c l ih =>
    simp only [List.foldl_cons, ih, toksChars_colorStep, List.append_assoc,
      List.singleton_append]

/-- C9: colorize_bracket_sentence preserves the input text: stripping
the inserted span tokens from the emitted markup leaves exactly the
input characters, each once and in their original order. -/
theorem C9_text_preserved (cs : List Char) : toksChars (colorizeToks cs) = cs := by
  unfold colorizeToks
  dsimp only
  rcases hc : (cs.foldl colorStep ⟨[], [], none⟩).current with _ | c <;>
    simpa [toksChars_append, toksChars, hc] using toksChars_foldl cs ⟨[], [], none⟩

/-- C2 counterexample: two maximal runs of characters all rendered
under one color nevertheless get more than one span each: the
main-clause input AB (both characters in the red foreground color)
emits two opening span tags, and the input (a)(b) (all six characters
under the same yellow background) also emits two opening span tags,
where the claim demands exactly one per run in both cases. -/
theorem C2_counterexample :
    (countOpens (colorizeToks ("AB".data)) = 2 ∧
      ¬ countOpens (colorizeToks ("AB".data)) = 1) ∧
    (countOpens (colorizeToks ("(a)(b)".data)) = 2 ∧
      ¬ countOpens (colorizeToks ("(a)(b)".data)) = 1) := by
  refine ⟨⟨?_, ?_⟩, ?_, ?_⟩ <;> decide

/-- C2 amended: span tokens are emitted only at changes of the tracked
active color, as the complete step characterization shows: every
character is preceded by exactly the spanChange tokens of its required
color against the open one (empty when they agree, so a bracket group
such as (ab) lies in one background span), a matched closing bracket
additionally emits the spanChange of the restored enclosing color
after it, and each main-clause character outside all brackets is
wrapped in its own self-closing foreground span. In particular the
active color is reset when a bracket group closes, so the adjacent
same-colored groups of (a)(b) are emitted as two background spans. -/
theorem C2_span_merging_amended :
    (∀ (st : CState) (ch : Char),
      colorStep st ch =
        if isOpener ch then
          CState.mk
            (st.html ++ spanChange st.current (some (bracketColor ch)) ++ [Tok.chr ch])
            (bracketColor ch :: st.stack) (some (bracketColor ch))
        else
          match st.stack with
          | top :: rest =>
            if isCloser ch then
              CState.mk
                (st.html ++ spanChange st.current (some top) ++ [Tok.chr ch]
                  ++ spanChange (some top) rest.head?)
                rest rest.head?
            else
              CState.mk (st.html ++ spanChange st.current (some top) ++ [Tok.chr ch])
                st.stack (some top)
          | [] =>
            CState.mk
              (st.html ++ (if st.current.isSome then [Tok.close] else [])
                ++ [Tok.openFg, Tok.chr ch, Tok.close])
              [] none) ∧
    colorizeToks ("(ab)".data)
      = [Tok.openBg ("#fff7cc".data), Tok.chr '(', Tok.chr 'a', Tok.chr 'b',
         Tok.chr ')', Tok.close] ∧
    colorizeToks ("(a)(b)".data)
      = [Tok.openBg ("#fff7cc".data), Tok.chr '(', Tok.chr 'a', Tok.chr ')', Tok.close,
         Tok.openBg ("#fff7cc".data), Tok.chr '(', Tok.chr 'b', Tok.chr ')', Tok.close] := by
  refine ⟨?_, by decide, by decide⟩
  intro st ch
  rcases st with ⟨html, stack, cur⟩
  unfold colorStep
  dsimp only
  split
  · by_cases hc : some (bracketColor ch) = cur <;>
      simp [hc, spanChange, openSpan]
  · split
    · split
      · next top rest =>
        by_cases h1 : some top = cur
        · by_cases h2 : rest.head? = cur <;>
            simp [h1, h2, spanChange, openSpan]
        · by_cases h2 : rest.head? = some top <;>
            simp [h1, h2, spanChange, openSpan]
      · simp [addMainChar]
    · split
      · next top rest =>
        by_cases h1 : some top = cur <;>
          simp [h1, spanChange, openSpan]
      · simp [addMainChar]

/-- C4: a closing bracket scanned while the stack is empty is handled
by add_main_clause_char, i.e. rendered as ordinary main-clause text in
the red main-clause foreground color, raising no error; on the stray
input A)B every character, the bracket included, is emitted as a
main-clause foreground span. -/
theorem C4_unmatched_closer (st : CState) (ch : Char)
    (hc : isCloser ch = true) (hs : st.stack = []) :
    colorStep st ch = addMainChar st ch ∧
      (addMainChar st ch).html
        = st.html ++ (if st.current.isSome then [Tok.close] else [])
            ++ [Tok.openFg, Tok.chr ch, Tok.close] ∧
      renderTok Tok.openFg = "<span style=\"color:#b91c1c;\">".data ∧
      colorizeToks ("A)B".data)
        = [Tok.openFg, Tok.chr 'A', Tok.close, Tok.openFg, Tok.chr ')', Tok.close,
           Tok.openFg, Tok.chr 'B', Tok.close] := by
  have ho : isOpener ch = false := by
    simp only [isCloser, Bool.or_eq_true, beq_iff_eq] at hc
    rcases hc with (h | h) | h <;> subst h <;> decide
  refine ⟨?_, by simp [addMainChar], rfl, rfl⟩
  simp [colorStep, ho, hc, hs]

/-- Witness for C4 at a closing parenthesis on the empty initial
state. -/
theorem C4_witness :
    colorStep (CState.mk [] [] none) ')' = addMainChar (CState.mk [] [] none) ')' :=
  (C4_unmatched_closer (CState.mk [] [] none) ')' (by decide) rfl).1

/-- C3 counterexample: rendering a chunk whose role is the legacy
clause variant 从句 yields markup that shows 从句 inside the visible
label element and contains no full-width parenthesis at all, contrary
to the claimed wrapping and label suppression. -/
theorem C3_counterexample :
    (hasSubstring ("从句".data)
        (build_chunks_html [Chunk.mk (.str ['X']) ("从句".data) (.str [])]) = true) ∧
      (hasSubstring ("<div class=\"label\">从句</div>".data)
        (build_chunks_html [Chunk.mk (.str ['X']) ("从句".data) (.str [])]) = true) ∧
      ((build_chunks_html [Chunk.mk (.str ['X']) ("从句".data) (.str [])]).contains
        '（' = false) ∧
      ((build_chunks_html [Chunk.mk (.str ['X']) ("从句".data) (.str [])]).contains
        '）' = false) := by
  refine ⟨?_, ?_, ?_, ?_⟩ <;> decide

/-- C3 amended: build_chunks_html has no special clause handling: a
chunk with role 从句 and truthy text is rendered as a regular colored
block with its 从句 label visible and the 其他 fallback color, and
parse_chunks normalizes the role 从句 to 其他 before rendering. -/
theorem C3_clause_role_amended :
    normRole ("从句".data) = "其他".data ∧
    ∀ (text note : JValue), jTruthy text = true →
      build_chunks_html [Chunk.mk text ("从句".data) note]
        = coloredPiece ("从句".data) ("#eeeeee".data) (jDisp text) := by
  constructor
  · decide
  · intro text note ht
    have hrole : ¬ ("从句".data = particleTag) := by decide
    simp [build_chunks_html, chunkPiece, ht, hrole]
    rfl

/-- Witness for C3 at a concrete one-character chunk text. -/
theorem C3_witness :
    build_chunks_html [Chunk.mk (.str ['Y']) ("从句".data) (.str [])]
      = coloredPiece ("从句".data) ("#eeeeee".data) (jDisp (.str ['Y'])) :=
  C3_clause_role_amended.2 (.str ['Y']) (.str []) (by decide)

/-- C6: the sanitizer recovers both documented shapes: the code-fenced
response and the response with surrounding prose both parse to the
empty chunk list with empty translation and bracket fields. -/
theorem C6_sanitizer_recovers :
    parse_chunks ("\x60\x60\x60json\n\x7b\"chunks\":[]\x7d\n\x60\x60\x60")
        = .ok ([], .str [], .str []) ∧
      parse_chunks ("Sure! \x7b\"chunks\": []\x7d Hope that helps.")
        = .ok ([], .str [], .str []) :=
  ⟨rfl, rfl⟩

/-- C7: a blank response raises the empty-response error, and a
response whose cleaned text does not decode as JSON raises the
bad-JSON error carrying the 80-character preview of the cleaned
text. -/
theorem C7_parse_error_preview (raw : String) :
    (pyStrip raw.data = [] → parse_chunks raw = .error .empty) ∧
    (pyStrip raw.data ≠ [] → jsonLoads (sanitize (pyStrip raw.data)) = none →
      parse_chunks raw = .error (.badJson (preview80 (sanitize (pyStrip raw.data))))) := by
  constructor
  · intro h
    unfold parse_chunks
    dsimp only
    rw [if_pos (by simp [h])]
  · intro h1 h2
    unfold parse_chunks
    dsimp only
    rw [if_neg (fun hc => h1 (by simpa using hc))]
    simp [h2]

/-- Witness for C7 on the non-JSON response hello. -/
theorem C7_witness :
    parse_chunks ("hello")
      = .error (.badJson (preview80 (sanitize (pyStrip ("hello".data))))) :=
  (C7_parse_error_preview ("hello")).2 (by decide) rfl

/-- C10 counterexample: an object lacking a chunks field but carrying
a translation makes parse_chunks return that translation, not an empty
translation string as the claim asserts. -/
theorem C10_counterexample :
    parse_chunks ("\x7b\"translation_zh\": \"x\"\x7d") = .ok ([], .str ['x'], .str []) ∧
      JValue.str ['x'] ≠ JValue.str [] :=
  ⟨rfl, by simp⟩

/-- C10 amended: when the sanitized output decodes to a JSON value
that is neither an object nor an array, parse_chunks returns the empty
chunk list with empty translation and bracket strings; when it decodes
to an object lacking a chunks field, parse_chunks returns the empty
chunk list together with whatever translation and bracket fields the
object carries. -/
theorem C10_nonobject_amended (raw : String) (v : JValue)
    (h1 : pyStrip raw.data ≠ [])
    (h2 : jsonLoads (sanitize (pyStrip raw.data)) = some v) :
    ((∀ xs, v ≠ .arr xs) → (∀ fs, v ≠ .obj fs) →
      parse_chunks raw = .ok ([], .str [], .str [])) ∧
    (∀ fs, v = .obj fs → jGet fs ("chunks".data) = none →
      parse_chunks raw = .ok ([], tzOf v, swbOf v)) := by
  constructor
  · intro hna hno
    unfold parse_chunks
    dsimp only
    rw [if_neg (fun hc => h1 (by simpa using hc))]
    simp only [h2]
    cases v with
    | arr xs => exact absurd rfl (hna xs)
    | obj fs => exact absurd rfl (hno fs)
    | null => simp [chunksOf, buildChunks, tzOf, swbOf]
    | bool b => simp [chunksOf, buildChunks, tzOf, swbOf]
    | num n => simp [chunksOf, buildChunks, tzOf, swbOf]
    | str s => simp [chunksOf, buildChunks, tzOf, swbOf]
  · intro fs hv hget
    subst hv
    unfold parse_chunks
    dsimp only
    rw [if_neg (fun hc => h1 (by simpa using hc))]
    simp only [h2]
    simp [chunksOf, dictGet, hget, pyOr, jTruthy, buildChunks]

/-- Witness for C10 on the bare-number response 5. -/
theorem C10_witness : parse_chunks ("5") = .ok ([], .str [], .str []) :=
  (C10_nonobject_amended ("5") (.num 5) (by decide) rfl).1
    (fun _ h => JValue.noConfusion h) (fun _ h => JValue.noConfusion h)

end JPApp
